import Mathlib

/-!
Verification of the vmbase shared-memory manager
(`vmbase/src/memory/shared.rs`) against its natural-language
specification.

The Rust code is shallowly embedded: machine addresses become `Nat`,
the fixed-capacity `ArrayVec` catalogs become lists guarded by the same
length checks the Rust code performs, fallible operations return
`Except MemoryTrackerError`, and the external page table / hypervisor
collaborators are abstracted by explicit success flags and event traces.
-/

deriving instance DecidableEq for Except

/-- A half-open memory range `[start, end)` of addresses, mirroring
`MemoryRange = Range<usize>` in `shared.rs`. -/
structure MemoryRange where
  start : Nat
  «end» : Nat
deriving DecidableEq, Repr

/-- Modelled from the spec: containment of half-open intervals
(`RangeExt::is_within` lives in `vmbase/src/util.rs`, which is not part
of the provided sources; the spec states that `MemoryRange` is a
half-open interval with the usual containment relation). -/
def MemoryRange.is_within (a b : MemoryRange) : Bool :=
  decide (b.start ≤ a.start) && decide (a.«end» ≤ b.«end»)

/-- Modelled from the spec: overlap of half-open intervals
(`RangeExt::overlaps` lives in `vmbase/src/util.rs`, which is not part
of the provided sources; two half-open intervals overlap exactly when
each one starts before the other ends). -/
def MemoryRange.overlaps (a b : MemoryRange) : Bool :=
  decide (a.start < b.«end») && decide (b.start < a.«end»)

/-- The number of bytes in a range, `Range::len`. -/
def MemoryRange.len (a : MemoryRange) : Nat :=
  a.«end» - a.start

/-- Modelled from the spec: the error taxonomy of §7
(`MemoryTrackerError` lives in `vmbase/src/memory/error.rs`, which is
not part of the provided sources).  `HypervisorError` stands for an
error propagated from the hypervisor call layer. -/
inductive MemoryTrackerError where
  | OutOfRange
  | Overlaps
  | Full
  | DifferentBaseAddress
  | SizeTooLarge
  | SizeTooSmall
  | FailedToMap
  | FailedToUnmap
  | InvalidPte
  | SetPteDirtyFailed
  | FlushRegionFailed
  | SharedPoolSetFailure
  | SharedMemorySetFailure
  | HypervisorError
deriving DecidableEq, Repr

/-- `MemoryType` from `shared.rs`: the permission kind of a tracked region. -/
inductive MemoryType where
  | ReadOnly
  | ReadWrite
deriving DecidableEq, Repr

/-- `MemoryRegion` from `shared.rs`: a tracked range with its permission kind. -/
structure MemoryRegion where
  range : MemoryRange
  mem_type : MemoryType
deriving DecidableEq, Repr

/-- The state of `MemoryTracker` from `shared.rs`.  The page-table handle
is external and is abstracted away; page-table operations appear as
explicit success flags on the operations that use them.  The `ArrayVec`
catalogs become lists; the fixed capacities are enforced by the same
length comparisons the Rust code performs. -/
structure MemoryTracker where
  total : MemoryRange
  regions : List MemoryRegion
  mmio_regions : List MemoryRange
  mmio_range : MemoryRange
  payload_range : Option MemoryRange
deriving DecidableEq, Repr

/-- `MemoryTracker::CAPACITY = 5`. -/
def MemoryTracker.CAPACITY : Nat := 5

/-- `MemoryTracker::MMIO_CAPACITY = 5`. -/
def MemoryTracker.MMIO_CAPACITY : Nat := 5

/-- `MemoryTracker::new`: asserts that `total` and `mmio_range` do not
overlap (`none` models the panic of a failed assertion), then starts
with empty catalogs.  Page-table activation has no effect on the
tracked state. -/
def MemoryTracker.new (total mmio_range : MemoryRange)
    (payload_range : Option MemoryRange) : Option MemoryTracker :=
  if total.overlaps mmio_range then none
  else some
    { total := total
      regions := []
      mmio_regions := []
      mmio_range := mmio_range
      payload_range := payload_range }

/-- `MemoryTracker::shrink`: check base address, then the new end, then
containment of every tracked region; on success replace `total`. -/
def MemoryTracker.shrink (t : MemoryTracker) (range : MemoryRange) :
    Except MemoryTrackerError Unit × MemoryTracker :=
  if range.start ≠ t.total.start then (.error .DifferentBaseAddress, t)
  else if t.total.«end» < range.«end» then (.error .SizeTooLarge, t)
  else if ¬ t.regions.all (fun r => r.range.is_within range) then
    (.error .SizeTooSmall, t)
  else (.ok (), { t with total := range })

/-- `MemoryTracker::check`: containment in `total`, no overlap with an
existing region, catalog not at capacity — in that order. -/
def MemoryTracker.check (t : MemoryTracker) (region : MemoryRegion) :
    Except MemoryTrackerError Unit :=
  if ¬ region.range.is_within t.total then .error .OutOfRange
  else if t.regions.any (fun r => region.range.overlaps r.range) then .error .Overlaps
  else if t.regions.length = MemoryTracker.CAPACITY then .error .Full
  else .ok ()

/-- `MemoryTracker::add`: `ArrayVec::try_push` fails exactly when the
catalog is at capacity; on success the pushed region's range (the last
element of the catalog) is returned. -/
def MemoryTracker.add (t : MemoryTracker) (region : MemoryRegion) :
    Except MemoryTrackerError MemoryRange × MemoryTracker :=
  if t.regions.length = MemoryTracker.CAPACITY then (.error .Full, t)
  else (.ok region.range, { t with regions := t.regions ++ [region] })

/-- `MemoryTracker::alloc_range`: check, map read-only (the page-table
call is abstracted by `map_ok`; on failure the error is
`FailedToMap`), then record the region. -/
def MemoryTracker.alloc_range (t : MemoryTracker) (range : MemoryRange)
    (map_ok : Bool) : Except MemoryTrackerError MemoryRange × MemoryTracker :=
  match t.check { range := range, mem_type := .ReadOnly } with
  | .error e => (.error e, t)
  | .ok _ =>
    if map_ok then t.add { range := range, mem_type := .ReadOnly }
    else (.error .FailedToMap, t)

/-- `MemoryTracker::alloc_range_mut`: as `alloc_range` but the region is
mapped read-write with dirty tracking and recorded as `ReadWrite`. -/
def MemoryTracker.alloc_range_mut (t : MemoryTracker) (range : MemoryRange)
    (map_ok : Bool) : Except MemoryTrackerError MemoryRange × MemoryTracker :=
  match t.check { range := range, mem_type := .ReadWrite } with
  | .error e => (.error e, t)
  | .ok _ =>
    if map_ok then t.add { range := range, mem_type := .ReadWrite }
    else (.error .FailedToMap, t)

/-- `MemoryTracker::alloc_mut`: convenience form over `alloc_range_mut`
taking a base and a (non-zero) size. -/
def MemoryTracker.alloc_mut (t : MemoryTracker) (base size : Nat)
    (map_ok : Bool) : Except MemoryTrackerError MemoryRange × MemoryTracker :=
  t.alloc_range_mut { start := base, «end» := base + size } map_ok

/-- `MemoryTracker::map_mmio_range`: containment in `mmio_range`, no
overlap with an existing MMIO region, capacity available; then the
page-table mapping (lazy when an MMIO guard is present, eager
otherwise — both abstracted by `map_ok`); then `try_push`, whose `Full`
branch is unreachable after the earlier capacity check. -/
def MemoryTracker.map_mmio_range (t : MemoryTracker) (range : MemoryRange)
    (map_ok : Bool) : Except MemoryTrackerError Unit × MemoryTracker :=
  if ¬ range.is_within t.mmio_range then (.error .OutOfRange, t)
  else if t.mmio_regions.any (fun r => range.overlaps r) then (.error .Overlaps, t)
  else if t.mmio_regions.length = MemoryTracker.MMIO_CAPACITY then (.error .Full, t)
  else if ¬ map_ok then (.error .FailedToMap, t)
  else if t.mmio_regions.length = MemoryTracker.MMIO_CAPACITY then (.error .Full, t)
  else (.ok (), { t with mmio_regions := t.mmio_regions ++ [range] })

/-- A concrete tracker state used by several witnesses: a fresh tracker over `0x1000..0x5000` with
MMIO space `0x9000..0xA000`. -/
def demoTracker : MemoryTracker :=
  { total := { start := 0x1000, «end» := 0x5000 }
    regions := []
    mmio_regions := []
    mmio_range := { start := 0x9000, «end» := 0xA000 }
    payload_range := none }

/-- Claim C2, as stated, is false: when `new_total` violates both the
base-address and the size precondition, `shrink` reports
`DifferentBaseAddress`, not the `SizeTooLarge` the claim promises for
every range with `new_total.end > total.end`. -/
theorem c2_shrink_claim_counterexample :
    let r : MemoryRange := { start := 0x2000, «end» := 0x6000 }
    demoTracker.total.«end» < r.«end» ∧
    (demoTracker.shrink r).1 = .error .DifferentBaseAddress ∧
    (demoTracker.shrink r).1 ≠ .error .SizeTooLarge := by
  refine ⟨by decide, rfl, by decide⟩

/-- Claim C2 (amended): `shrink` checks its preconditions in order —
`DifferentBaseAddress` if the base address differs; otherwise
`SizeTooLarge` if the new end exceeds the old; otherwise `SizeTooSmall`
if some tracked region is not contained in the new range; otherwise it
succeeds and replaces `total`.  Every error leaves the tracker (in
particular `total`) unchanged. -/
theorem c2_shrink_spec (t : MemoryTracker) (r : MemoryRange) :
    (r.start ≠ t.total.start →
      t.shrink r = (.error .DifferentBaseAddress, t)) ∧
    (r.start = t.total.start → t.total.«end» < r.«end» →
      t.shrink r = (.error .SizeTooLarge, t)) ∧
    (r.start = t.total.start → r.«end» ≤ t.total.«end» →
      (∃ reg ∈ t.regions, reg.range.is_within r = false) →
      t.shrink r = (.error .SizeTooSmall, t)) ∧
    (r.start = t.total.start → r.«end» ≤ t.total.«end» →
      (∀ reg ∈ t.regions, reg.range.is_within r = true) →
      t.shrink r = (.ok (), { t with total := r })) := by
  refine ⟨?_, ?_, ?_, ?_⟩
  · intro h
    simp [MemoryTracker.shrink, h]
  · intro h1 h2
    simp [MemoryTracker.shrink, h1, h2]
  · intro h1 h2 h3
    have hnl : ¬ t.total.«end» < r.«end» := by omega
    have hall : ¬ t.regions.all (fun reg => reg.range.is_within r) = true := by
      simp only [List.all_eq_true]
      intro hforall
      obtain ⟨reg, hmem, hfalse⟩ := h3
      have := hforall reg hmem
      simp [hfalse] at this
    simp [MemoryTracker.shrink, h1, hnl, hall]
  · intro h1 h2 h3
    have hnl : ¬ t.total.«end» < r.«end» := by omega
    have hall : t.regions.all (fun reg => reg.range.is_within r) = true := by
      simp only [List.all_eq_true]
      exact h3
    simp [MemoryTracker.shrink, h1, hnl, hall]

/-- Witness for C2: each branch of the amended `shrink` specification,
exercised at concrete inputs over `demoTracker` (with one tracked region
for the `SizeTooSmall` branch). -/
theorem c2_shrink_spec_witness :
    (demoTracker.shrink { start := 0x2000, «end» := 0x3000 }
      = (.error .DifferentBaseAddress, demoTracker)) ∧
    (demoTracker.shrink { start := 0x1000, «end» := 0x6000 }
      = (.error .SizeTooLarge, demoTracker)) ∧
    (let t1 : MemoryTracker :=
      { demoTracker with regions :=
          [{ range := { start := 0x2000, «end» := 0x3000 }, mem_type := .ReadOnly }] }
     t1.shrink { start := 0x1000, «end» := 0x1800 } = (.error .SizeTooSmall, t1)) ∧
    (demoTracker.shrink { start := 0x1000, «end» := 0x3000 }
      = (.ok (), { demoTracker with total := { start := 0x1000, «end» := 0x3000 } })) := by
  refine ⟨?_, ?_, ?_, ?_⟩
  · exact (c2_shrink_spec demoTracker _).1 (by decide)
  · exact (c2_shrink_spec demoTracker _).2.1 rfl (by decide)
  · exact (c2_shrink_spec _ _).2.2.1 rfl (by decide)
      ⟨_, List.mem_singleton.mpr rfl, by decide⟩
  · exact (c2_shrink_spec demoTracker _).2.2.2 rfl (by decide) (by decide)

/-- Overlap of ranges is symmetric. -/
theorem MemoryRange.overlaps_comm (a b : MemoryRange) :
    a.overlaps b = b.overlaps a := by
  unfold MemoryRange.overlaps
  exact Bool.and_comm _ _

/-- Overlap of ranges, unfolded to arithmetic. -/
theorem MemoryRange.overlaps_eq_false_iff (a b : MemoryRange) :
    a.overlaps b = false ↔ ¬ (a.start < b.«end» ∧ b.start < a.«end») := by
  simp [MemoryRange.overlaps]

/-- The invariant of the two catalogs (spec §3): every tracked region is
contained in `total`, regions are pairwise non-overlapping, and the
catalog holds at most `CAPACITY` entries; likewise for the MMIO catalog
against `mmio_range` and `MMIO_CAPACITY`. -/
def MemoryTracker.Inv (t : MemoryTracker) : Prop :=
  (∀ reg ∈ t.regions, reg.range.is_within t.total = true) ∧
  t.regions.Pairwise (fun a b => a.range.overlaps b.range = false) ∧
  t.regions.length ≤ MemoryTracker.CAPACITY ∧
  (∀ r ∈ t.mmio_regions, r.is_within t.mmio_range = true) ∧
  t.mmio_regions.Pairwise (fun a b => a.overlaps b = false) ∧
  t.mmio_regions.length ≤ MemoryTracker.MMIO_CAPACITY

instance (t : MemoryTracker) : Decidable t.Inv := by
  unfold MemoryTracker.Inv
  infer_instance

/-- A successful `check` certifies containment, non-overlap with every
existing region, and spare capacity. -/
theorem MemoryTracker.check_ok (t : MemoryTracker) (region : MemoryRegion)
    (h : t.check region = .ok ()) :
    region.range.is_within t.total = true ∧
    (∀ r ∈ t.regions, region.range.overlaps r.range = false) ∧
    t.regions.length ≠ MemoryTracker.CAPACITY := by
  unfold MemoryTracker.check at h
  split_ifs at h with h1 h2 h3
  refine ⟨by simpa using h1, ?_, h3⟩
  intro r hr
  rw [List.any_eq_true] at h2
  push_neg at h2
  simpa using h2 r hr

/-- Shape of `alloc_range`: it either leaves the tracker unchanged or
appends exactly the requested read-only region to the catalog. -/
theorem MemoryTracker.alloc_range_shape (t : MemoryTracker) (r : MemoryRange)
    (mo : Bool) :
    (t.alloc_range r mo).2 = t ∨
    (t.alloc_range r mo).2 =
      { t with regions := t.regions ++ [{ range := r, mem_type := .ReadOnly }] } := by
  unfold MemoryTracker.alloc_range MemoryTracker.add
  rcases hc : t.check { range := r, mem_type := .ReadOnly } with e | u
  · simp [hc]
  · simp only [hc]
    cases mo
    · exact Or.inl rfl
    · by_cases hlen : t.regions.length = MemoryTracker.CAPACITY
      · exact Or.inl (by simp [hlen])
      · exact Or.inr (by simp [hlen])

/-- Shape of `alloc_range_mut`: it either leaves the tracker unchanged or
appends exactly the requested read-write region to the catalog. -/
theorem MemoryTracker.alloc_range_mut_shape (t : MemoryTracker) (r : MemoryRange)
    (mo : Bool) :
    (t.alloc_range_mut r mo).2 = t ∨
    (t.alloc_range_mut r mo).2 =
      { t with regions := t.regions ++ [{ range := r, mem_type := .ReadWrite }] } := by
  unfold MemoryTracker.alloc_range_mut MemoryTracker.add
  rcases hc : t.check { range := r, mem_type := .ReadWrite } with e | u
  · simp [hc]
  · simp only [hc]
    cases mo
    · exact Or.inl rfl
    · by_cases hlen : t.regions.length = MemoryTracker.CAPACITY
      · exact Or.inl (by simp [hlen])
      · exact Or.inr (by simp [hlen])

/-- Shape of `map_mmio_range`: it either leaves the tracker unchanged or
appends exactly the requested range to the MMIO catalog. -/
theorem MemoryTracker.map_mmio_range_shape (t : MemoryTracker) (r : MemoryRange)
    (mo : Bool) :
    (t.map_mmio_range r mo).2 = t ∨
    (t.map_mmio_range r mo).2 = { t with mmio_regions := t.mmio_regions ++ [r] } := by
  unfold MemoryTracker.map_mmio_range
  split_ifs <;> simp

/-- One call out of the three catalog-mutating entry points of the claim
(`alloc_range`, `alloc_range_mut`, `map_mmio_range`), with the success
flag of the underlying page-table operation. -/
inductive TrackerOp where
  | allocRange (range : MemoryRange) (map_ok : Bool)
  | allocRangeMut (range : MemoryRange) (map_ok : Bool)
  | mapMmioRange (range : MemoryRange) (map_ok : Bool)
deriving DecidableEq, Repr

/-- Apply one tracker call, keeping only the resulting state. -/
def MemoryTracker.step (t : MemoryTracker) : TrackerOp → MemoryTracker
  | .allocRange r mo => (t.alloc_range r mo).2
  | .allocRangeMut r mo => (t.alloc_range_mut r mo).2
  | .mapMmioRange r mo => (t.map_mmio_range r mo).2

/-- Apply a sequence of tracker calls. -/
def MemoryTracker.run (t : MemoryTracker) (ops : List TrackerOp) : MemoryTracker :=
  ops.foldl MemoryTracker.step t

/-- `check` followed by `add` preserves the catalog invariant. -/
theorem MemoryTracker.add_inv (t : MemoryTracker) (region : MemoryRegion)
    (h : t.Inv) (hc : t.check region = .ok ()) : (t.add region).2.Inv := by
  obtain ⟨hwithin, hov, hlen⟩ := t.check_ok region hc
  obtain ⟨hI1, hI2, hI3, hI4, hI5, hI6⟩ := h
  unfold MemoryTracker.add
  split
  · exact ⟨hI1, hI2, hI3, hI4, hI5, hI6⟩
  · refine ⟨?_, ?_, ?_, hI4, hI5, hI6⟩
    · intro reg hreg
      rcases List.mem_append.mp hreg with hmem | hmem
      · exact hI1 reg hmem
      · rcases List.mem_singleton.mp hmem with rfl
        exact hwithin
    · rw [List.pairwise_append]
      refine ⟨hI2, List.pairwise_singleton _ _, ?_⟩
      intro a ha b hb
      rcases List.mem_singleton.mp hb with rfl
      rw [MemoryRange.overlaps_comm]
      exact hov a ha
    · simp only [List.length_append, List.length_singleton]
      omega

/-- `alloc_range` preserves the catalog invariant. -/
theorem MemoryTracker.alloc_range_inv (t : MemoryTracker) (r : MemoryRange)
    (mo : Bool) (h : t.Inv) : (t.alloc_range r mo).2.Inv := by
  unfold MemoryTracker.alloc_range
  rcases hc : t.check { range := r, mem_type := .ReadOnly } with e | u
  · simp only [hc]
    exact h
  · simp only [hc]
    cases mo
    · exact h
    · exact t.add_inv _ h (by simpa using hc)

/-- `alloc_range_mut` preserves the catalog invariant. -/
theorem MemoryTracker.alloc_range_mut_inv (t : MemoryTracker) (r : MemoryRange)
    (mo : Bool) (h : t.Inv) : (t.alloc_range_mut r mo).2.Inv := by
  unfold MemoryTracker.alloc_range_mut
  rcases hc : t.check { range := r, mem_type := .ReadWrite } with e | u
  · simp only [hc]
    exact h
  · simp only [hc]
    cases mo
    · exact h
    · exact t.add_inv _ h (by simpa using hc)

/-- `map_mmio_range` preserves the catalog invariant. -/
theorem MemoryTracker.map_mmio_range_inv (t : MemoryTracker) (r : MemoryRange)
    (mo : Bool) (h : t.Inv) : (t.map_mmio_range r mo).2.Inv := by
  have hInv := h
  obtain ⟨hI1, hI2, hI3, hI4, hI5, hI6⟩ := h
  unfold MemoryTracker.map_mmio_range
  split_ifs with h1 h2 h3 h4
  any_goals exact hInv
  · refine ⟨hI1, hI2, hI3, ?_, ?_, ?_⟩
    · intro reg hreg
      rcases List.mem_append.mp hreg with hmem | hmem
      · exact hI4 reg hmem
      · rcases List.mem_singleton.mp hmem with rfl
        simpa using h1
    · rw [List.pairwise_append]
      refine ⟨hI5, List.pairwise_singleton _ _, ?_⟩
      intro a ha b hb
      rcases List.mem_singleton.mp hb with rfl
      rw [List.any_eq_true] at h2
      push_neg at h2
      rw [MemoryRange.overlaps_comm]
      simpa using h2 a ha
    · simp only [List.length_append, List.length_singleton]
      unfold MemoryTracker.MMIO_CAPACITY at h3 hI6 ⊢
      omega

/-- One step preserves the catalog invariant. -/
theorem MemoryTracker.step_inv (t : MemoryTracker) (op : TrackerOp)
    (h : t.Inv) : (t.step op).Inv := by
  cases op with
  | allocRange r mo => exact t.alloc_range_inv r mo h
  | allocRangeMut r mo => exact t.alloc_range_mut_inv r mo h
  | mapMmioRange r mo => exact t.map_mmio_range_inv r mo h

/-- A whole run preserves the catalog invariant. -/
theorem MemoryTracker.run_inv (ops : List TrackerOp) (t : MemoryTracker)
    (h : t.Inv) : (t.run ops).Inv := by
  induction ops generalizing t with
  | nil => exact h
  | cons op rest ih => exact ih _ (t.step_inv op h)

/-- A freshly constructed tracker satisfies the catalog invariant. -/
theorem MemoryTracker.new_inv (total mmio_range : MemoryRange)
    (payload : Option MemoryRange) (t : MemoryTracker)
    (h : MemoryTracker.new total mmio_range payload = some t) : t.Inv := by
  unfold MemoryTracker.new at h
  split at h
  · cases h
  · cases h
    refine ⟨?_, ?_, ?_, ?_, ?_, ?_⟩ <;> simp [MemoryTracker.CAPACITY, MemoryTracker.MMIO_CAPACITY]

/-- Claim C1: starting from any tracker produced by `MemoryTracker::new`,
after every sequence of `alloc_range`, `alloc_range_mut` and
`map_mmio_range` calls (each succeeding or failing), the regions
catalog contains only pairwise non-overlapping ranges each contained in
`total`, the MMIO catalog only pairwise non-overlapping ranges each
contained in `mmio_range`, and neither catalog exceeds its fixed
capacity of 5. -/
theorem c1_catalogs_invariant (total mmio_range : MemoryRange)
    (payload : Option MemoryRange) (t0 : MemoryTracker)
    (hnew : MemoryTracker.new total mmio_range payload = some t0)
    (ops : List TrackerOp) : (t0.run ops).Inv :=
  MemoryTracker.run_inv ops t0 (MemoryTracker.new_inv total mmio_range payload t0 hnew)

/-- Witness for C1: a concrete run — two disjoint allocations, an
overlapping one that fails, an MMIO mapping and a failed page-table
mapping — ends in a state satisfying the invariant. -/
theorem c1_catalogs_invariant_witness :
    (MemoryTracker.new { start := 0x1000, «end» := 0x5000 }
        { start := 0x9000, «end» := 0xA000 } none = some demoTracker) ∧
    (demoTracker.run
      [.allocRangeMut { start := 0x1000, «end» := 0x2000 } true,
       .allocRange { start := 0x1800, «end» := 0x2800 } true,
       .allocRange { start := 0x2000, «end» := 0x2800 } true,
       .mapMmioRange { start := 0x9000, «end» := 0x9100 } true,
       .allocRange { start := 0x3000, «end» := 0x3800 } false]).Inv := by
  constructor
  · rfl
  · exact c1_catalogs_invariant { start := 0x1000, «end» := 0x5000 }
      { start := 0x9000, «end» := 0xA000 } none demoTracker rfl _

/-- A step never removes regions and never changes `total` or
`mmio_range`. -/
theorem MemoryTracker.step_fields (t : MemoryTracker) (op : TrackerOp) :
    (t.step op).total = t.total ∧ (t.step op).mmio_range = t.mmio_range ∧
    ∃ l, (t.step op).regions = t.regions ++ l := by
  cases op with
  | allocRange r mo =>
    rcases t.alloc_range_shape r mo with h | h <;>
      simp only [MemoryTracker.step] <;> rw [h]
    · exact ⟨rfl, rfl, [], by simp⟩
    · exact ⟨rfl, rfl, [_], rfl⟩
  | allocRangeMut r mo =>
    rcases t.alloc_range_mut_shape r mo with h | h <;>
      simp only [MemoryTracker.step] <;> rw [h]
    · exact ⟨rfl, rfl, [], by simp⟩
    · exact ⟨rfl, rfl, [_], rfl⟩
  | mapMmioRange r mo =>
    rcases t.map_mmio_range_shape r mo with h | h <;>
      simp only [MemoryTracker.step] <;> rw [h]
    · exact ⟨rfl, rfl, [], by simp⟩
    · exact ⟨rfl, rfl, [], by simp⟩

/-- A run never removes regions and never changes `total` or
`mmio_range`. -/
theorem MemoryTracker.run_fields (ops : List TrackerOp) (t : MemoryTracker) :
    (t.run ops).total = t.total ∧ (t.run ops).mmio_range = t.mmio_range ∧
    ∃ l, (t.run ops).regions = t.regions ++ l := by
  induction ops generalizing t with
  | nil => exact ⟨rfl, rfl, [], by simp [MemoryTracker.run]⟩
  | cons op rest ih =>
    obtain ⟨ht, hm, l1, hr⟩ := t.step_fields op
    obtain ⟨ht', hm', l2, hr'⟩ := ih (t.step op)
    refine ⟨ht'.trans ht, hm'.trans hm, l1 ++ l2, ?_⟩
    show ((t.step op).run rest).regions = t.regions ++ (l1 ++ l2)
    rw [hr', hr, List.append_assoc]

/-- A successful `alloc_range` returns the requested range and appends
exactly the corresponding read-only region. -/
theorem MemoryTracker.alloc_range_ok (t : MemoryTracker) (r : MemoryRange)
    (mo : Bool) (res : MemoryRange) (t1 : MemoryTracker)
    (h : t.alloc_range r mo = (.ok res, t1)) :
    res = r ∧
    t1 = { t with regions := t.regions ++ [{ range := r, mem_type := .ReadOnly }] } := by
  unfold MemoryTracker.alloc_range MemoryTracker.add at h
  rcases hc : t.check { range := r, mem_type := .ReadOnly } with e | u
  · rw [hc] at h
    simp at h
  · rw [hc] at h
    cases mo
    · simp at h
    · by_cases hlen : t.regions.length = MemoryTracker.CAPACITY
      · simp [hlen] at h
      · simp only [hlen] at h
        simp at h
        exact ⟨h.1.symm, h.2.symm⟩

/-- `check` reports `Overlaps` for any in-`total` candidate that
overlaps an existing region. -/
theorem MemoryTracker.check_overlap_error (t : MemoryTracker)
    (region existing : MemoryRegion) (hmem : existing ∈ t.regions)
    (hov : region.range.overlaps existing.range = true)
    (hin : region.range.is_within t.total = true) :
    t.check region = .error .Overlaps := by
  have h2 : t.regions.any (fun r => region.range.overlaps r.range) = true :=
    List.any_eq_true.mpr ⟨existing, hmem, hov⟩
  simp [MemoryTracker.check, hin, h2]

/-- `alloc_range` propagates a `check` error and leaves the tracker
unchanged. -/
theorem MemoryTracker.alloc_range_check_error (t : MemoryTracker)
    (r : MemoryRange) (mo : Bool) (e : MemoryTrackerError)
    (h : t.check { range := r, mem_type := .ReadOnly } = .error e) :
    t.alloc_range r mo = (.error e, t) := by
  unfold MemoryTracker.alloc_range
  rw [h]

/-- `alloc_range_mut` propagates a `check` error and leaves the tracker
unchanged. -/
theorem MemoryTracker.alloc_range_mut_check_error (t : MemoryTracker)
    (r : MemoryRange) (mo : Bool) (e : MemoryTrackerError)
    (h : t.check { range := r, mem_type := .ReadWrite } = .error e) :
    t.alloc_range_mut r mo = (.error e, t) := by
  unfold MemoryTracker.alloc_range_mut
  rw [h]

/-- Claim C3, as stated, is false: after a successful allocation of
`0x1000..0x2000`, a later call with the overlapping range
`0x1800..0x6000` — which sticks out of `total` — fails with
`OutOfRange`, not `Overlaps`, because containment is checked before
overlap. -/
theorem c3_claim_counterexample :
    (demoTracker.alloc_range { start := 0x1000, «end» := 0x2000 } true).1
      = .ok { start := 0x1000, «end» := 0x2000 } ∧
    (MemoryRange.overlaps { start := 0x1800, «end» := 0x6000 }
      { start := 0x1000, «end» := 0x2000 }) = true ∧
    ((demoTracker.alloc_range { start := 0x1000, «end» := 0x2000 } true).2.alloc_range
        { start := 0x1800, «end» := 0x6000 } true).1 = .error .OutOfRange ∧
    ((demoTracker.alloc_range { start := 0x1000, «end» := 0x2000 } true).2.alloc_range
        { start := 0x1800, «end» := 0x6000 } true).1 ≠ .error .Overlaps := by
  refine ⟨rfl, by decide, rfl, by decide⟩

/-- Claim C3 (amended): if `alloc_range` succeeds for `r`, then any
subsequent `alloc_range` or `alloc_range_mut` call — after arbitrary
intervening tracker calls — whose range overlaps `r` *and lies within
`total`* fails with `Overlaps` and leaves the tracker (in particular
the regions catalog) exactly as it was. -/
theorem c3_alloc_overlap_fails (t : MemoryTracker) (r : MemoryRange) (mo : Bool)
    (res : MemoryRange) (t1 : MemoryTracker)
    (hsucc : t.alloc_range r mo = (.ok res, t1))
    (ops : List TrackerOp) (r2 : MemoryRange) (mo2 mo3 : Bool)
    (hov : r2.overlaps r = true)
    (hin : r2.is_within (t1.run ops).total = true) :
    (t1.run ops).alloc_range r2 mo2 = (.error .Overlaps, t1.run ops) ∧
    (t1.run ops).alloc_range_mut r2 mo3 = (.error .Overlaps, t1.run ops) := by
  obtain ⟨-, ht1⟩ := t.alloc_range_ok r mo res t1 hsucc
  have hmem : ({ range := r, mem_type := .ReadOnly } : MemoryRegion) ∈ t1.regions := by
    rw [ht1]
    simp
  obtain ⟨-, -, l, hreg⟩ := MemoryTracker.run_fields ops t1
  have hmem2 : ({ range := r, mem_type := .ReadOnly } : MemoryRegion) ∈ (t1.run ops).regions := by
    rw [hreg]
    exact List.mem_append_left _ hmem
  refine ⟨?_, ?_⟩
  · exact (t1.run ops).alloc_range_check_error r2 mo2 .Overlaps
      ((t1.run ops).check_overlap_error _ _ hmem2 hov hin)
  · exact (t1.run ops).alloc_range_mut_check_error r2 mo3 .Overlaps
      ((t1.run ops).check_overlap_error _ _ hmem2 hov hin)

/-- Witness for C3 (amended): a successful allocation followed by an
unrelated MMIO mapping; the overlapping in-`total` retry fails with
`Overlaps` under both entry points and mutates nothing. -/
theorem c3_alloc_overlap_fails_witness :
    (demoTracker.alloc_range { start := 0x1000, «end» := 0x2000 } true
      = (.ok { start := 0x1000, «end» := 0x2000 },
         { demoTracker with regions :=
            [{ range := { start := 0x1000, «end» := 0x2000 }, mem_type := .ReadOnly }] })) ∧
    (let t1 : MemoryTracker :=
      { demoTracker with regions :=
          [{ range := { start := 0x1000, «end» := 0x2000 }, mem_type := .ReadOnly }] }
     let t2 := t1.run [.mapMmioRange { start := 0x9000, «end» := 0x9100 } true]
     t2.alloc_range { start := 0x1800, «end» := 0x2800 } true = (.error .Overlaps, t2) ∧
     t2.alloc_range_mut { start := 0x1800, «end» := 0x2800 } false = (.error .Overlaps, t2)) := by
  refine ⟨rfl, ?_⟩
  exact c3_alloc_overlap_fails demoTracker { start := 0x1000, «end» := 0x2000 } true
    { start := 0x1000, «end» := 0x2000 }
    { demoTracker with regions :=
        [{ range := { start := 0x1000, «end» := 0x2000 }, mem_type := .ReadOnly }] }
    rfl
    [.mapMmioRange { start := 0x9000, «end» := 0x9100 } true]
    { start := 0x1800, «end» := 0x2800 } true false
    (by decide) (by decide)

/-- Disjointness of the governed RAM range and the MMIO range, the
property `MemoryTracker::new` asserts. -/
def MemoryTracker.Disj (t : MemoryTracker) : Prop :=
  t.total.overlaps t.mmio_range = false

/-- Shape of `shrink`: it either leaves the tracker unchanged or
replaces `total` with a range of the same base and a no-larger end. -/
theorem MemoryTracker.shrink_shape (t : MemoryTracker) (r : MemoryRange) :
    (t.shrink r).2 = t ∨
    ((t.shrink r).2 = { t with total := r } ∧
      r.start = t.total.start ∧ r.«end» ≤ t.total.«end») := by
  unfold MemoryTracker.shrink
  split_ifs with h1 h2 h3 <;>
    first
    | exact Or.inl rfl
    | exact Or.inr ⟨rfl, by omega, by omega⟩

/-- Any mutating call of the tracker, `shrink` included: the reachable
states of a tracker are exactly those produced by sequences of these
from `MemoryTracker::new`. -/
inductive TrackerOpFull where
  | op (o : TrackerOp)
  | shrink (range : MemoryRange)
deriving DecidableEq, Repr

/-- Apply one mutating call, keeping only the resulting state. -/
def MemoryTracker.stepFull (t : MemoryTracker) : TrackerOpFull → MemoryTracker
  | .op o => t.step o
  | .shrink r => (t.shrink r).2

/-- Apply a sequence of mutating calls. -/
def MemoryTracker.runFull (t : MemoryTracker) (ops : List TrackerOpFull) :
    MemoryTracker :=
  ops.foldl MemoryTracker.stepFull t

/-- Every mutating call preserves disjointness of `total` and
`mmio_range`. -/
theorem MemoryTracker.stepFull_disj (t : MemoryTracker) (op : TrackerOpFull)
    (hd : t.Disj) : (t.stepFull op).Disj := by
  cases op with
  | op o =>
    obtain ⟨ht, hm, -⟩ := t.step_fields o
    unfold MemoryTracker.Disj at hd ⊢
    simp only [MemoryTracker.stepFull]
    rw [ht, hm]
    exact hd
  | shrink r =>
    rcases t.shrink_shape r with h | ⟨h, hstart, hend⟩ <;>
      simp only [MemoryTracker.stepFull] <;> rw [h]
    · exact hd
    · unfold MemoryTracker.Disj at hd ⊢
      rw [MemoryRange.overlaps_eq_false_iff] at hd ⊢
      simp only
      omega

/-- Claim C10: `MemoryTracker::new` panics (models as `none`) whenever
`total` overlaps `mmio_range`; consequently every reachable tracker
state — the result of any sequence of `alloc_range`,
`alloc_range_mut`, `map_mmio_range` and `shrink` calls on a
constructed tracker — has `total` disjoint from `mmio_range`. -/
theorem c10_new_requires_disjoint (total mmio_range : MemoryRange)
    (payload : Option MemoryRange) :
    (total.overlaps mmio_range = true →
      MemoryTracker.new total mmio_range payload = none) ∧
    (∀ t0 : MemoryTracker,
      MemoryTracker.new total mmio_range payload = some t0 →
      ∀ ops : List TrackerOpFull, (t0.runFull ops).Disj) := by
  constructor
  · intro h
    unfold MemoryTracker.new
    rw [if_pos h]
  · intro t0 h ops
    have hd : t0.Disj := by
      unfold MemoryTracker.new at h
      split_ifs at h with hov
      cases h
      unfold MemoryTracker.Disj
      simpa using hov
    clear h
    induction ops generalizing t0 with
    | nil => exact hd
    | cons op rest ih => exact ih _ (t0.stepFull_disj op hd)

/-- Witness for C10: constructing over overlapping ranges panics, and a
constructed tracker stays disjoint through a run that includes a
successful `shrink`. -/
theorem c10_new_requires_disjoint_witness :
    (MemoryTracker.new { start := 0x1000, «end» := 0x5000 }
      { start := 0x4000, «end» := 0x6000 } none = none) ∧
    ((demoTracker.runFull
        [.op (.allocRange { start := 0x1000, «end» := 0x2000 } true),
         .shrink { start := 0x1000, «end» := 0x3000 }]).Disj) := by
  constructor
  · exact (c10_new_requires_disjoint { start := 0x1000, «end» := 0x5000 }
      { start := 0x4000, «end» := 0x6000 } none).1 (by decide)
  · exact (c10_new_requires_disjoint { start := 0x1000, «end» := 0x5000 }
      { start := 0x9000, «end» := 0xA000 } none).2 demoTracker rfl _

/-- One allocation call of C9's shape: `alloc_range` or
`alloc_range_mut` depending on the requested kind, with the page-table
mapping succeeding. -/
def MemoryTracker.allocCall (t : MemoryTracker) (c : MemoryRange × MemoryType) :
    Except MemoryTrackerError MemoryRange × MemoryTracker :=
  match c.2 with
  | .ReadOnly => t.alloc_range c.1 true
  | .ReadWrite => t.alloc_range_mut c.1 true

/-- Run a sequence of allocation calls, collecting each result. -/
def MemoryTracker.runAllocs (t : MemoryTracker) :
    List (MemoryRange × MemoryType) →
      List (Except MemoryTrackerError MemoryRange) × MemoryTracker
  | [] => ([], t)
  | c :: rest =>
    match t.allocCall c with
    | (res, t') =>
      match t'.runAllocs rest with
      | (results, tfin) => (res :: results, tfin)

/-- Run a sequence of `map_mmio_range` calls, collecting each result. -/
def MemoryTracker.runMmios (t : MemoryTracker) :
    List MemoryRange → List (Except MemoryTrackerError Unit) × MemoryTracker
  | [] => ([], t)
  | r :: rest =>
    match t.map_mmio_range r true with
    | (res, t') =>
      match t'.runMmios rest with
      | (results, tfin) => (res :: results, tfin)

/-- `check` succeeds for an in-range, non-overlapping candidate while
the catalog has spare capacity. -/
theorem MemoryTracker.check_success (t : MemoryTracker) (region : MemoryRegion)
    (hin : region.range.is_within t.total = true)
    (hov : ∀ reg ∈ t.regions, region.range.overlaps reg.range = false)
    (hlen : t.regions.length < MemoryTracker.CAPACITY) :
    t.check region = .ok () := by
  have hany : t.regions.any (fun r => region.range.overlaps r.range) = false := by
    rw [List.any_eq_false]
    intro r hr
    simp [hov r hr]
  have hne : t.regions.length ≠ MemoryTracker.CAPACITY := by omega
  simp [MemoryTracker.check, hin, hany, hne]

/-- An allocation call with a valid candidate and spare capacity
succeeds and appends exactly the requested region. -/
theorem MemoryTracker.allocCall_success (t : MemoryTracker)
    (c : MemoryRange × MemoryType)
    (hin : c.1.is_within t.total = true)
    (hov : ∀ reg ∈ t.regions, c.1.overlaps reg.range = false)
    (hlen : t.regions.length < MemoryTracker.CAPACITY) :
    t.allocCall c = (.ok c.1,
      { t with regions := t.regions ++ [{ range := c.1, mem_type := c.2 }] }) := by
  have hne : t.regions.length ≠ MemoryTracker.CAPACITY := by omega
  rcases c with ⟨r, mt⟩
  cases mt
  · show t.alloc_range r true = _
    unfold MemoryTracker.alloc_range MemoryTracker.add
    rw [t.check_success _ hin hov hlen]
    simp [hne]
  · show t.alloc_range_mut r true = _
    unfold MemoryTracker.alloc_range_mut MemoryTracker.add
    rw [t.check_success _ hin hov hlen]
    simp [hne]

/-- An allocation call with a valid candidate against a catalog at
capacity fails with `Full` and leaves the tracker unchanged. -/
theorem MemoryTracker.allocCall_full (t : MemoryTracker)
    (c : MemoryRange × MemoryType)
    (hin : c.1.is_within t.total = true)
    (hov : ∀ reg ∈ t.regions, c.1.overlaps reg.range = false)
    (hlen : t.regions.length = MemoryTracker.CAPACITY) :
    t.allocCall c = (.error .Full, t) := by
  have hany : t.regions.any (fun r => c.1.overlaps r.range) = false := by
    rw [List.any_eq_false]
    intro r hr
    simp [hov r hr]
  have hchk : ∀ mt, t.check { range := c.1, mem_type := mt } = .error .Full := by
    intro mt
    simp [MemoryTracker.check, hin, hany, hlen]
  rcases c with ⟨r, mt⟩
  cases mt
  · exact t.alloc_range_check_error r true .Full (hchk _)
  · exact t.alloc_range_mut_check_error r true .Full (hchk _)

/-- Generalized C9 induction: a batch of valid, pairwise-disjoint,
in-`total` allocation calls that fits in the remaining capacity
succeeds call by call and appends exactly the requested regions. -/
theorem MemoryTracker.runAllocs_success
    (calls : List (MemoryRange × MemoryType)) (t : MemoryTracker)
    (hin : ∀ c ∈ calls, c.1.is_within t.total = true)
    (hpair : (calls.map Prod.fst).Pairwise (fun a b => a.overlaps b = false))
    (hov : ∀ c ∈ calls, ∀ reg ∈ t.regions, c.1.overlaps reg.range = false)
    (hlen : t.regions.length + calls.length ≤ MemoryTracker.CAPACITY) :
    t.runAllocs calls = (calls.map (fun c => .ok c.1),
      { t with regions := t.regions ++
          calls.map (fun c => { range := c.1, mem_type := c.2 }) }) := by
  induction calls generalizing t with
  | nil =>
    simp [MemoryTracker.runAllocs]
  | cons c rest ih =>
    have hstep := t.allocCall_success c (hin c (List.mem_cons_self c rest))
      (hov c (List.mem_cons_self c rest)) (by simp at hlen; omega)
    have hpair' := List.pairwise_cons.mp hpair
    have hrest := ih
      { t with regions := t.regions ++ [{ range := c.1, mem_type := c.2 }] }
      (by
        intro c' hc'
        exact hin c' (List.mem_cons_of_mem _ hc'))
      hpair'.2
      (by
        intro c' hc' reg hreg
        rcases List.mem_append.mp hreg with hmem | hmem
        · exact hov c' (List.mem_cons_of_mem _ hc') reg hmem
        · rcases List.mem_singleton.mp hmem with rfl
          rw [MemoryRange.overlaps_comm]
          exact hpair'.1 c'.1 (List.mem_map_of_mem _ hc'))
      (by simp at hlen ⊢; omega)
    unfold MemoryTracker.runAllocs
    rw [hstep]
    dsimp only
    rw [hrest]
    simp [List.append_assoc]

/-- `map_mmio_range` with a valid candidate and spare capacity succeeds
and appends exactly the requested range. -/
theorem MemoryTracker.map_mmio_success (t : MemoryTracker) (r : MemoryRange)
    (hin : r.is_within t.mmio_range = true)
    (hov : ∀ m ∈ t.mmio_regions, r.overlaps m = false)
    (hlen : t.mmio_regions.length < MemoryTracker.MMIO_CAPACITY) :
    t.map_mmio_range r true =
      (.ok (), { t with mmio_regions := t.mmio_regions ++ [r] }) := by
  have hany : t.mmio_regions.any (fun m => r.overlaps m) = false := by
    rw [List.any_eq_false]
    intro m hm
    simp [hov m hm]
  have hne : t.mmio_regions.length ≠ MemoryTracker.MMIO_CAPACITY := by omega
  simp [MemoryTracker.map_mmio_range, hin, hany, hne]

/-- `map_mmio_range` with a valid candidate against a full MMIO catalog
fails with `Full` and leaves the tracker unchanged. -/
theorem MemoryTracker.map_mmio_full (t : MemoryTracker) (r : MemoryRange)
    (hin : r.is_within t.mmio_range = true)
    (hov : ∀ m ∈ t.mmio_regions, r.overlaps m = false)
    (hlen : t.mmio_regions.length = MemoryTracker.MMIO_CAPACITY) :
    t.map_mmio_range r true = (.error .Full, t) := by
  have hany : t.mmio_regions.any (fun m => r.overlaps m) = false := by
    rw [List.any_eq_false]
    intro m hm
    simp [hov m hm]
  simp [MemoryTracker.map_mmio_range, hin, hany, hlen]

/-- Generalized C9 induction for MMIO: a batch of valid,
pairwise-disjoint, in-`mmio_range` mappings that fits in the remaining
capacity succeeds call by call and appends exactly the requested
ranges. -/
theorem MemoryTracker.runMmios_success (mm : List MemoryRange)
    (t : MemoryTracker)
    (hin : ∀ r ∈ mm, r.is_within t.mmio_range = true)
    (hpair : mm.Pairwise (fun a b => a.overlaps b = false))
    (hov : ∀ r ∈ mm, ∀ m ∈ t.mmio_regions, r.overlaps m = false)
    (hlen : t.mmio_regions.length + mm.length ≤ MemoryTracker.MMIO_CAPACITY) :
    t.runMmios mm = (mm.map (fun _ => .ok ()),
      { t with mmio_regions := t.mmio_regions ++ mm }) := by
  induction mm generalizing t with
  | nil =>
    simp [MemoryTracker.runMmios]
  | cons r rest ih =>
    have hstep := t.map_mmio_success r (hin r (List.mem_cons_self r rest))
      (hov r (List.mem_cons_self r rest)) (by simp at hlen; omega)
    have hpair' := List.pairwise_cons.mp hpair
    have hrest := ih { t with mmio_regions := t.mmio_regions ++ [r] }
      (by
        intro r' hr'
        exact hin r' (List.mem_cons_of_mem _ hr'))
      hpair'.2
      (by
        intro r' hr' m hm
        rcases List.mem_append.mp hm with hmem | hmem
        · exact hov r' (List.mem_cons_of_mem _ hr') m hmem
        · rcases List.mem_singleton.mp hmem with rfl
          rw [MemoryRange.overlaps_comm]
          exact hpair'.1 r' hr')
      (by simp at hlen ⊢; omega)
    unfold MemoryTracker.runMmios
    rw [hstep]
    dsimp only
    rw [hrest]
    simp [List.append_assoc]

/-- Claim C9: from a tracker with empty catalogs, any five valid,
pairwise non-overlapping, in-range allocations (read-only or
read-write) all succeed, and a sixth such allocation fails with `Full`
leaving the tracker unchanged; the same holds for `map_mmio_range`
against the MMIO catalog's capacity of five. -/
theorem c9_capacity_five (t0 : MemoryTracker)
    (hreg0 : t0.regions = []) (hmm0 : t0.mmio_regions = [])
    (calls : List (MemoryRange × MemoryType)) (c6 : MemoryRange × MemoryType)
    (hlen5 : calls.length = MemoryTracker.CAPACITY)
    (hin : ∀ c ∈ calls, c.1.is_within t0.total = true)
    (hpair : (calls.map Prod.fst).Pairwise (fun a b => a.overlaps b = false))
    (h6in : c6.1.is_within t0.total = true)
    (h6ov : ∀ c ∈ calls, c6.1.overlaps c.1 = false)
    (mm : List MemoryRange) (m6 : MemoryRange)
    (hmlen : mm.length = MemoryTracker.MMIO_CAPACITY)
    (hmin : ∀ r ∈ mm, r.is_within t0.mmio_range = true)
    (hmpair : mm.Pairwise (fun a b => a.overlaps b = false))
    (hm6in : m6.is_within t0.mmio_range = true)
    (hm6ov : ∀ r ∈ mm, m6.overlaps r = false) :
    (t0.runAllocs calls).1 = calls.map (fun c => .ok c.1) ∧
    (t0.runAllocs calls).2.allocCall c6 = (.error .Full, (t0.runAllocs calls).2) ∧
    (t0.runMmios mm).1 = mm.map (fun _ => .ok ()) ∧
    (t0.runMmios mm).2.map_mmio_range m6 true =
      (.error .Full, (t0.runMmios mm).2) := by
  have hov0 : ∀ c ∈ calls, ∀ reg ∈ t0.regions, c.1.overlaps reg.range = false := by
    intro c hc reg hreg
    rw [hreg0] at hreg
    simp at hreg
  have hcap : t0.regions.length + calls.length ≤ MemoryTracker.CAPACITY := by
    rw [hreg0, hlen5]
    simp
  have hA := MemoryTracker.runAllocs_success calls t0 hin hpair hov0 hcap
  rw [hreg0] at hA
  simp only [List.nil_append] at hA
  have hmov0 : ∀ r ∈ mm, ∀ m ∈ t0.mmio_regions, r.overlaps m = false := by
    intro r hr m hm
    rw [hmm0] at hm
    simp at hm
  have hmcap : t0.mmio_regions.length + mm.length ≤ MemoryTracker.MMIO_CAPACITY := by
    rw [hmm0, hmlen]
    simp
  have hM := MemoryTracker.runMmios_success mm t0 hmin hmpair hmov0 hmcap
  rw [hmm0] at hM
  simp only [List.nil_append] at hM
  refine ⟨by rw [hA], ?_, by rw [hM], ?_⟩
  · rw [hA]
    dsimp only
    apply MemoryTracker.allocCall_full
    · exact h6in
    · intro reg hreg
      dsimp only at hreg
      obtain ⟨c, hc, rfl⟩ := List.mem_map.mp hreg
      exact h6ov c hc
    · dsimp only
      rw [List.length_map, hlen5]
  · rw [hM]
    dsimp only
    apply MemoryTracker.map_mmio_full
    · exact hm6in
    · intro m hm
      dsimp only at hm
      exact hm6ov m hm
    · dsimp only
      rw [hmlen]

/-- Concrete batch of five disjoint in-range allocation calls for the
C9 witness. -/
def c9Calls : List (MemoryRange × MemoryType) :=
  [({ start := 0x1000, «end» := 0x1800 }, .ReadWrite),
   ({ start := 0x1800, «end» := 0x2000 }, .ReadOnly),
   ({ start := 0x2000, «end» := 0x2800 }, .ReadOnly),
   ({ start := 0x2800, «end» := 0x3000 }, .ReadWrite),
   ({ start := 0x3000, «end» := 0x3800 }, .ReadOnly)]

/-- Concrete batch of five disjoint in-range MMIO mappings for the C9
witness. -/
def c9Mmios : List MemoryRange :=
  [{ start := 0x9000, «end» := 0x9040 },
   { start := 0x9040, «end» := 0x9080 },
   { start := 0x9080, «end» := 0x90C0 },
   { start := 0x90C0, «end» := 0x9100 },
   { start := 0x9100, «end» := 0x9140 }]

/-- Witness for C9: the concrete batches all succeed on the demo
tracker and the sixth call of each kind fails with `Full`, leaving the
tracker as it was. -/
theorem c9_capacity_five_witness :
    (demoTracker.runAllocs c9Calls).1 = c9Calls.map (fun c => .ok c.1) ∧
    (demoTracker.runAllocs c9Calls).2.allocCall
        ({ start := 0x3800, «end» := 0x4000 }, .ReadOnly) =
      (.error .Full, (demoTracker.runAllocs c9Calls).2) ∧
    (demoTracker.runMmios c9Mmios).1 = c9Mmios.map (fun _ => .ok ()) ∧
    (demoTracker.runMmios c9Mmios).2.map_mmio_range
        { start := 0x9140, «end» := 0x9180 } true =
      (.error .Full, (demoTracker.runMmios c9Mmios).2) :=
  c9_capacity_five demoTracker rfl rfl c9Calls
    ({ start := 0x3800, «end» := 0x4000 }, .ReadOnly) rfl
    (by decide) (by decide) (by decide) (by decide)
    c9Mmios { start := 0x9140, «end» := 0x9180 } rfl
    (by decide) (by decide) (by decide) (by decide)

/-- A Rust `Layout`: a size and an alignment.  The well-formedness
condition (alignment is a power of two) is carried as hypotheses where
the code relies on it. -/
structure Layout where
  size : Nat
  align : Nat
deriving DecidableEq, Repr

/-- `MemorySharer` from `shared.rs`: the sharing granule and the list of
`(base, layout)` blocks obtained from the heap and shared with the
host, in allocation order (`Vec::push` appends at the end). -/
structure MemorySharer where
  granule : Nat
  frames : List (Nat × Layout)
deriving DecidableEq, Repr

/-- `MemorySharer::new`: starts with no frames.  The `capacity`
argument only pre-sizes the `Vec`; the `granule.is_power_of_two()`
assertion is a precondition carried as a hypothesis where it matters. -/
def MemorySharer.new (granule _capacity : Nat) : MemorySharer :=
  { granule := granule, frames := [] }

/-- The process-wide singletons of `shared.rs`: `SHARED_POOL` (the
set-at-most-once `OnceBox` holding the frame allocator, modelled by the
list of address ranges donated to it) and `SHARED_MEMORY` (the
mutex-guarded optional `MemorySharer`). -/
structure SharedState where
  shared_pool : Option (List MemoryRange)
  shared_memory : Option MemorySharer
deriving DecidableEq, Repr

/-- `MemoryTracker::init_dynamic_shared_pool`: `replace` installs a
fresh Sharer unconditionally, then the previous value (if any) makes
the call fail — and is dropped.  Only then is the pool singleton set;
`OnceBox::set` fails, without overwriting, when already set.  The last
component of the result collects the `MemorySharer` values dropped by
the call. -/
def MemoryTracker.init_dynamic_shared_pool (t : MemoryTracker)
    (st : SharedState) (granule : Nat) :
    Except MemoryTrackerError Unit × MemoryTracker × SharedState ×
      List MemorySharer :=
  match st.shared_memory with
  | some prev =>
    (.error .SharedMemorySetFailure, t,
     { st with shared_memory := some (MemorySharer.new granule 10) }, [prev])
  | none =>
    match st.shared_pool with
    | some _ =>
      (.error .SharedPoolSetFailure, t,
       { st with shared_memory := some (MemorySharer.new granule 10) }, [])
    | none =>
      (.ok (), t,
       { shared_pool := some [],
         shared_memory := some (MemorySharer.new granule 10) }, [])

/-- `MemoryTracker::init_static_shared_pool`: carve `range` out of
`total` via `alloc_mut`, seed a fresh allocator with it, then set the
pool singleton (`OnceBox::set` fails, without overwriting, when
already set).  The Sharer singleton is never consulted.  `none` models
the `NonZeroUsize::new(range.len()).unwrap()` panic on an empty
range. -/
def MemoryTracker.init_static_shared_pool (t : MemoryTracker)
    (st : SharedState) (range : MemoryRange) (map_ok : Bool) :
    Option (Except MemoryTrackerError Unit × MemoryTracker × SharedState) :=
  if range.len = 0 then none
  else
    match t.alloc_mut range.start range.len map_ok with
    | (.error e, t') => some (.error e, t', st)
    | (.ok r, t') =>
      match st.shared_pool with
      | some _ => some (.error .SharedPoolSetFailure, t', st)
      | none => some (.ok (), t', { st with shared_pool := some [r] })

/-- `MemoryTracker::init_heap_shared_pool`: `init_dynamic_shared_pool`
with a one-byte granule. -/
def MemoryTracker.init_heap_shared_pool (t : MemoryTracker)
    (st : SharedState) :
    Except MemoryTrackerError Unit × MemoryTracker × SharedState ×
      List MemorySharer :=
  t.init_dynamic_shared_pool st 1

/-- Claim C4, as stated, is false in two ways.  (a) A second
`init_dynamic_shared_pool` does fail with `SharedMemorySetFailure`,
but `replace` has already installed a fresh Sharer: the previously
installed Sharer is no longer in place and is dropped (which unshares
all its memory).  (b) `init_static_shared_pool` never consults the
Sharer singleton: with the Sharer set but the pool unset it succeeds
instead of failing. -/
theorem c4_claim_counterexample :
    (let s0 : MemorySharer :=
      { granule := 0x1000,
        frames := [(0x80000000, { size := 0x1000, align := 0x1000 })] }
     let st0 : SharedState := { shared_pool := none, shared_memory := some s0 }
     let r := demoTracker.init_dynamic_shared_pool st0 0x1000
     r.1 = .error .SharedMemorySetFailure ∧
     r.2.2.1.shared_memory ≠ some s0 ∧
     r.2.2.2 = [s0]) ∧
    (let s0 : MemorySharer := { granule := 0x1000, frames := [] }
     let st0 : SharedState := { shared_pool := none, shared_memory := some s0 }
     (Option.map (fun out => out.1)
       (demoTracker.init_static_shared_pool st0
         { start := 0x2000, «end» := 0x3000 } true)) = some (.ok ())) := by
  refine ⟨⟨rfl, by decide, rfl⟩, rfl⟩

/-- Claim C4 (amended): `init_dynamic_shared_pool` (and so
`init_heap_shared_pool`) fails with `SharedMemorySetFailure` when the
Sharer singleton is already set — but replaces it with a fresh Sharer
and drops the previous one — and fails with `SharedPoolSetFailure`
when the Sharer was unset but the pool already set (still installing a
fresh Sharer); `init_static_shared_pool` fails with
`SharedPoolSetFailure` exactly when the pool singleton is already set,
regardless of the Sharer.  The pool singleton itself is never
overwritten: a failed `set` leaves the previously installed pool in
place. -/
theorem c4_init_pools (t : MemoryTracker) (st : SharedState) (granule : Nat) :
    (∀ prev, st.shared_memory = some prev →
      t.init_dynamic_shared_pool st granule =
        (.error .SharedMemorySetFailure, t,
         { st with shared_memory := some (MemorySharer.new granule 10) },
         [prev])) ∧
    (st.shared_memory = none → ∀ pool, st.shared_pool = some pool →
      t.init_dynamic_shared_pool st granule =
        (.error .SharedPoolSetFailure, t,
         { st with shared_memory := some (MemorySharer.new granule 10) }, [])) ∧
    (st.shared_memory = none → st.shared_pool = none →
      t.init_dynamic_shared_pool st granule =
        (.ok (), t,
         { shared_pool := some [],
           shared_memory := some (MemorySharer.new granule 10) }, [])) ∧
    (∀ pool, st.shared_pool = some pool →
      ∀ range mo r t', range.len ≠ 0 →
        t.alloc_mut range.start range.len mo = (.ok r, t') →
        t.init_static_shared_pool st range mo =
          some (.error .SharedPoolSetFailure, t', st)) ∧
    (st.shared_pool = none →
      ∀ range mo r t', range.len ≠ 0 →
        t.alloc_mut range.start range.len mo = (.ok r, t') →
        t.init_static_shared_pool st range mo =
          some (.ok (), t', { st with shared_pool := some [r] })) ∧
    t.init_heap_shared_pool st = t.init_dynamic_shared_pool st 1 := by
  refine ⟨?_, ?_, ?_, ?_, ?_, rfl⟩
  · intro prev hprev
    unfold MemoryTracker.init_dynamic_shared_pool
    rw [hprev]
  · intro hmem pool hpool
    unfold MemoryTracker.init_dynamic_shared_pool
    rw [hmem, hpool]
  · intro hmem hpool
    unfold MemoryTracker.init_dynamic_shared_pool
    rw [hmem, hpool]
  · intro pool hpool range mo r t' hlen halloc
    unfold MemoryTracker.init_static_shared_pool
    rw [if_neg hlen, halloc, hpool]
  · intro hpool range mo r t' hlen halloc
    unfold MemoryTracker.init_static_shared_pool
    rw [if_neg hlen, halloc, hpool]

/-- Witness for C4 (amended): each branch exercised at concrete
inputs over `demoTracker`. -/
theorem c4_init_pools_witness :
    (demoTracker.init_dynamic_shared_pool
        { shared_pool := none,
          shared_memory := some { granule := 0x1000, frames := [] } } 0x1000 =
      (.error .SharedMemorySetFailure, demoTracker,
       { shared_pool := none,
         shared_memory := some (MemorySharer.new 0x1000 10) },
       [{ granule := 0x1000, frames := [] }])) ∧
    (demoTracker.init_dynamic_shared_pool
        { shared_pool := some [], shared_memory := none } 0x1000 =
      (.error .SharedPoolSetFailure, demoTracker,
       { shared_pool := some [],
         shared_memory := some (MemorySharer.new 0x1000 10) }, [])) ∧
    (demoTracker.init_dynamic_shared_pool
        { shared_pool := none, shared_memory := none } 0x1000 =
      (.ok (), demoTracker,
       { shared_pool := some [],
         shared_memory := some (MemorySharer.new 0x1000 10) }, [])) ∧
    (demoTracker.init_static_shared_pool
        { shared_pool := some [], shared_memory := none }
        { start := 0x2000, «end» := 0x3000 } true =
      some (.error .SharedPoolSetFailure,
        { demoTracker with regions :=
            [{ range := { start := 0x2000, «end» := 0x3000 },
               mem_type := .ReadWrite }] },
        { shared_pool := some [], shared_memory := none })) ∧
    (demoTracker.init_static_shared_pool
        { shared_pool := none, shared_memory := none }
        { start := 0x2000, «end» := 0x3000 } true =
      some (.ok (),
        { demoTracker with regions :=
            [{ range := { start := 0x2000, «end» := 0x3000 },
               mem_type := .ReadWrite }] },
        { shared_pool := some [{ start := 0x2000, «end» := 0x3000 }],
          shared_memory := none })) := by
  refine ⟨?_, ?_, ?_, ?_, ?_⟩
  · exact (c4_init_pools demoTracker _ 0x1000).1 _ rfl
  · exact (c4_init_pools demoTracker _ 0x1000).2.1 rfl _ rfl
  · exact (c4_init_pools demoTracker _ 0x1000).2.2.1 rfl rfl
  · exact (c4_init_pools demoTracker _ 0x1000).2.2.2.1 _ rfl
      { start := 0x2000, «end» := 0x3000 } true _ _ (by decide) rfl
  · exact (c4_init_pools demoTracker _ 0x1000).2.2.2.2.1 rfl
      { start := 0x2000, «end» := 0x3000 } true _ _ (by decide) rfl

/-- `Layout::align_to`: raise the alignment to at least `a` (both are
powers of two in Rust, so their max is the combined alignment). -/
def Layout.align_to (l : Layout) (a : Nat) : Layout :=
  { size := l.size, align := max l.align a }

/-- `Layout::pad_to_align`: round the size up to a multiple of the
alignment. -/
def Layout.pad_to_align (l : Layout) : Layout :=
  { size := (l.size + l.align - 1) / l.align * l.align, align := l.align }

/-- `(base..end).step_by(granule)`: the granule-spaced addresses from
`base` up to (excluding) `end`. -/
def stepBy (base «end» granule : Nat) : List Nat :=
  (List.range ((«end» - base + granule - 1) / granule)).map
    (fun i => base + i * granule)

/-- An observable action of `MemorySharer::drop`: a hypervisor unshare
call for one granule (`virt_to_phys` is the identity in this
identity-mapped environment, and is applied identically on the share
and unshare paths), or the release of one block back to the heap. -/
inductive SharerEvent where
  | unshare (addr : Nat)
  | dealloc (base : Nat) (layout : Layout)
deriving DecidableEq, Repr

/-- `MemorySharer::refill`: pad the hint to a granule-aligned,
granule-padded layout, take a fresh block at `base` from the global
allocator (the allocator is external, so the address is a parameter),
share every granule-sized sub-block if a sharing capability
(`get_mem_sharer()`) exists, and record the block.  Returns the new
Sharer state and the list of addresses shared by this call. -/
def MemorySharer.refill (s : MemorySharer) (mem_sharer : Bool)
    (hint : Layout) (base : Nat) : MemorySharer × List Nat :=
  let layout := (hint.align_to s.granule).pad_to_align
  let «end» := base + layout.size
  let shared := if mem_sharer then stepBy base «end» s.granule else []
  ({ s with frames := s.frames ++ [(base, layout)] }, shared)

/-- Run a sequence of `refill` calls, accumulating all shared
addresses. -/
def MemorySharer.runRefills (s : MemorySharer) (mem_sharer : Bool) :
    List (Layout × Nat) → MemorySharer × List Nat
  | [] => (s, [])
  | (hint, base) :: rest =>
    match s.refill mem_sharer hint base with
    | (s', shared) =>
      match s'.runRefills mem_sharer rest with
      | (sfin, sharedRest) => (sfin, shared ++ sharedRest)

/-- The loop body of `MemorySharer::drop`: `frames.pop()` yields the
blocks in reverse allocation order (the argument list here is already
reversed); for each block, unshare every granule if the capability
exists, then `dealloc` the block. -/
def sharerDropGo (mem_sharer : Bool) (granule : Nat) :
    List (Nat × Layout) → List SharerEvent
  | [] => []
  | (base, layout) :: rest =>
    (if mem_sharer then
        (stepBy base (base + layout.size) granule).map SharerEvent.unshare
      else []) ++
    [SharerEvent.dealloc base layout] ++ sharerDropGo mem_sharer granule rest

/-- The event trace of `MemorySharer::drop`. -/
def MemorySharer.dropEvents (s : MemorySharer) (mem_sharer : Bool) :
    List SharerEvent :=
  sharerDropGo mem_sharer s.granule s.frames.reverse

/-- `runRefills` leaves the granule unchanged, appends one frame per
call in call order, and shares exactly the granules of each padded
block. -/
theorem MemorySharer.runRefills_spec (cap : Bool)
    (calls : List (Layout × Nat)) (s : MemorySharer) :
    (s.runRefills cap calls).1 =
      { granule := s.granule,
        frames := s.frames ++
          calls.map (fun c => (c.2, (c.1.align_to s.granule).pad_to_align)) } ∧
    (s.runRefills cap calls).2 =
      calls.flatMap (fun c =>
        if cap then
          stepBy c.2 (c.2 + ((c.1.align_to s.granule).pad_to_align).size)
            s.granule
        else []) := by
  induction calls generalizing s with
  | nil =>
    refine ⟨?_, rfl⟩
    simp [MemorySharer.runRefills]
  | cons c rest ih =>
    rcases c with ⟨hint, base⟩
    obtain ⟨ih1, ih2⟩ :=
      ih { s with frames := s.frames ++ [(base, (hint.align_to s.granule).pad_to_align)] }
    unfold MemorySharer.runRefills MemorySharer.refill
    dsimp only
    rw [ih1, ih2]
    refine ⟨?_, ?_⟩
    · simp [List.append_assoc]
    · simp [List.flatMap_cons]

/-- An `unshare` event determines its address. -/
theorem SharerEvent.unshare_injective :
    Function.Injective SharerEvent.unshare := by
  intro a b h
  injection h

/-- Counting unshares in the drop loop counts the granules of the
processed blocks. -/
theorem sharerDropGo_count_unshare (cap : Bool) (g a : Nat)
    (l : List (Nat × Layout)) :
    (sharerDropGo cap g l).count (SharerEvent.unshare a) =
      (l.flatMap (fun f =>
        if cap then stepBy f.1 (f.1 + f.2.size) g else [])).count a := by
  induction l with
  | nil => rfl
  | cons f rest ih =>
    rcases f with ⟨base, layout⟩
    cases cap
    · simpa [sharerDropGo] using ih
    · simp only [sharerDropGo, List.flatMap_cons, List.count_append, ih, if_pos]
      rw [List.count_map_of_injective _ _ SharerEvent.unshare_injective]
      simp

/-- The drop loop deallocates exactly the processed blocks, in
order. -/
theorem sharerDropGo_deallocs (cap : Bool) (g : Nat)
    (l : List (Nat × Layout)) :
    (sharerDropGo cap g l).filterMap
      (fun e => match e with
        | SharerEvent.dealloc b layout => some (b, layout)
        | SharerEvent.unshare _ => none) = l := by
  induction l with
  | nil => rfl
  | cons f rest ih =>
    rcases f with ⟨base, layout⟩
    simp only [sharerDropGo, List.filterMap_append, ih]
    cases cap <;> simp [List.filterMap_map, Function.comp]

/-- The drop loop is the per-block trace, block by block. -/
theorem sharerDropGo_eq_flatMap (cap : Bool) (g : Nat)
    (l : List (Nat × Layout)) :
    sharerDropGo cap g l = l.flatMap (fun f =>
      (if cap then (stepBy f.1 (f.1 + f.2.size) g).map SharerEvent.unshare
       else []) ++ [SharerEvent.dealloc f.1 f.2]) := by
  induction l with
  | nil => rfl
  | cons f rest ih =>
    rcases f with ⟨base, layout⟩
    simp [sharerDropGo, ih]

/-- Claim C5: for a `MemorySharer` built by any sequence of `refill`
calls, the drop trace (i) records one frame per refill in allocation
order, (ii) unshares every address shared by the refills exactly once
— no granule twice, none missed — (iii) releases the blocks back to
the heap in reverse allocation order, and (iv) is, block by block, all
of a block's granule unshares followed by that block's release. -/
theorem c5_sharer_drop_balanced (granule capacity : Nat) (cap : Bool)
    (calls : List (Layout × Nat)) :
    ((MemorySharer.new granule capacity).runRefills cap calls).1.frames =
      calls.map (fun c => (c.2, (c.1.align_to granule).pad_to_align)) ∧
    (∀ a : Nat,
      (((MemorySharer.new granule capacity).runRefills cap calls).1.dropEvents
          cap).count (SharerEvent.unshare a) =
        (((MemorySharer.new granule capacity).runRefills cap calls).2).count a) ∧
    ((((MemorySharer.new granule capacity).runRefills cap calls).1.dropEvents
        cap).filterMap
      (fun e => match e with
        | SharerEvent.dealloc b layout => some (b, layout)
        | SharerEvent.unshare _ => none) =
      (((MemorySharer.new granule capacity).runRefills cap
        calls).1.frames).reverse) ∧
    (((MemorySharer.new granule capacity).runRefills cap calls).1.dropEvents cap
      = (((MemorySharer.new granule capacity).runRefills cap
          calls).1.frames).reverse.flatMap
          (fun f =>
            (if cap then
                (stepBy f.1 (f.1 + f.2.size) granule).map SharerEvent.unshare
              else []) ++ [SharerEvent.dealloc f.1 f.2])) := by
  obtain ⟨h1, h2⟩ :=
    MemorySharer.runRefills_spec cap calls (MemorySharer.new granule capacity)
  simp only [MemorySharer.new, List.nil_append] at h1 h2 ⊢
  refine ⟨by rw [h1], ?_, ?_, ?_⟩
  · intro a
    rw [h1, h2]
    simp only [MemorySharer.dropEvents]
    rw [sharerDropGo_count_unshare]
    have hperm :
        ((calls.map (fun c =>
            (c.2, (c.1.align_to granule).pad_to_align))).reverse.flatMap
          (fun f => if cap then stepBy f.1 (f.1 + f.2.size) granule else [])).Perm
        ((calls.map (fun c =>
            (c.2, (c.1.align_to granule).pad_to_align))).flatMap
          (fun f => if cap then stepBy f.1 (f.1 + f.2.size) granule else [])) :=
      (List.reverse_perm _).flatMap_right _
    rw [hperm.count_eq]
    rw [List.flatMap_map]
  · rw [h1]
    simp only [MemorySharer.dropEvents]
    rw [sharerDropGo_deallocs]
  · rw [h1]
    simp only [MemorySharer.dropEvents]
    rw [sharerDropGo_eq_flatMap]

/-- The two page-table-entry flags relevant to the MMIO state machine:
`Attributes::VALID` and the software `MMIO_LAZY_MAP_FLAG`.  The page
table is modelled as a map from 4KB-aligned page base addresses to the
flags of the leaf entry governing that page (table-level entries are
skipped by both visitors, so they carry no information here). -/
structure PteFlags where
  valid : Bool
  mmio_lazy : Bool
deriving DecidableEq, Repr

/-- `SIZE_4KB`. -/
def SIZE_4KB : Nat := 4096

/-- `MMIO_GUARD_GRANULE_SIZE` of the hypervisor call layer (4KB). -/
def MMIO_GUARD_GRANULE_SIZE : Nat := 4096

/-- Modelled from the spec: `page_4kb_of` (in `vmbase/src/memory/util.rs`,
not part of the provided sources) aligns an address down to its 4KB
page. -/
def page_4kb_of (addr : Nat) : Nat :=
  addr - addr % SIZE_4KB

/-- `verify_lazy_mapped_block` on a leaf entry: accept exactly the
lazily-registered state — `MMIO_LAZY_MAP_FLAG` set and `VALID`
clear. -/
def verify_lazy_mapped_block (flags : PteFlags) : Bool :=
  flags.mmio_lazy && !flags.valid

/-- `MemoryTracker::handle_mmio_fault`: verify that the faulting
page's entry is lazily registered (else `InvalidPte`), then guard-map
the page with the hypervisor (`guard_map_ok` abstracts that fallible
call), then install the device mapping (`device_map_ok` abstracts
`map_device`).  The returned list records the hypervisor guard-map
calls made. -/
def handle_mmio_fault (pt : Nat → PteFlags) (addr : Nat)
    (guard_map_ok device_map_ok : Bool) :
    Except MemoryTrackerError Unit × List Nat :=
  let page_start := page_4kb_of addr
  if ¬ verify_lazy_mapped_block (pt page_start) then (.error .InvalidPte, [])
  else if ¬ guard_map_ok then (.error .HypervisorError, [page_start])
  else if ¬ device_map_ok then (.error .FailedToMap, [page_start])
  else (.ok (), [page_start])

/-- Claim C6: for every address whose 4KB page's entry is not exactly
in the lazily-registered state (lazy marker set, `VALID` clear),
`handle_mmio_fault` returns `InvalidPte` and makes no hypervisor
guard-map call. -/
theorem c6_mmio_fault_invalid_pte (pt : Nat → PteFlags) (addr : Nat)
    (guard_map_ok device_map_ok : Bool)
    (h : ¬ ((pt (page_4kb_of addr)).mmio_lazy = true ∧
            (pt (page_4kb_of addr)).valid = false)) :
    handle_mmio_fault pt addr guard_map_ok device_map_ok =
      (.error .InvalidPte, []) := by
  have hv : verify_lazy_mapped_block (pt (page_4kb_of addr)) = false := by
    unfold verify_lazy_mapped_block
    rcases hl : (pt (page_4kb_of addr)).mmio_lazy <;>
      rcases hval : (pt (page_4kb_of addr)).valid <;> simp_all
  unfold handle_mmio_fault
  simp [hv]

/-- Witness for C6: a fault on a page already mapped valid (and on one
with no lazy marker) yields `InvalidPte` and no hypervisor call. -/
theorem c6_mmio_fault_invalid_pte_witness :
    handle_mmio_fault (fun _ => { valid := true, mmio_lazy := true })
        0x9123 true true = (.error .InvalidPte, []) ∧
    handle_mmio_fault (fun _ => { valid := false, mmio_lazy := false })
        0xA000 true true = (.error .InvalidPte, []) := by
  constructor
  · exact c6_mmio_fault_invalid_pte _ 0x9123 true true (by decide)
  · exact c6_mmio_fault_invalid_pte _ 0xA000 true true (by decide)

/-- The observable outcome of `alloc_shared`: a returned (necessarily
non-null) buffer address, the diverging `handle_alloc_error` path, or
a panic (`unwrap` of an unset pool singleton, a null allocator result,
or the zero-size assertion). -/
inductive AllocSharedOutcome where
  | returns (addr : Nat)
  | fatal
  | panicked
deriving DecidableEq, Repr

/-- `try_shared_alloc`: the pool's `alloc_aligned` is external
(buddy-allocator crate), so its two possible answers are oracle
parameters: `first` for the initial attempt and `retry` for the
attempt after a refill.  Returns `none` when the pool singleton is
unset (`SHARED_POOL.get().unwrap()` panics); otherwise the allocation
result, whether `refill` was invoked, and how many sub-allocation
attempts were made. -/
def try_shared_alloc (pool_set : Bool) (first retry : Option Nat)
    (sharer_active : Bool) : Option (Option Nat × Bool × Nat) :=
  if ¬ pool_set then none
  else some (match first with
    | some b => (some b, false, 1)
    | none =>
      if sharer_active then (retry, true, 2)
      else (none, false, 1))

/-- `alloc_shared`: asserts a non-zero layout size, tries the shared
pool, and on exhaustion aborts through `handle_alloc_error` — it never
returns a null pointer (a null allocator answer would panic at
`NonNull::new(..).unwrap()`, not be returned).  The second and third
components pass through whether `refill` ran and the number of
sub-allocation attempts. -/
def alloc_shared (layout_size : Nat) (pool_set : Bool)
    (first retry : Option Nat) (sharer_active : Bool) :
    AllocSharedOutcome × Bool × Nat :=
  if layout_size = 0 then (.panicked, false, 0)
  else match try_shared_alloc pool_set first retry sharer_active with
  | none => (.panicked, false, 0)
  | some (result, refilled, attempts) =>
    match result with
    | none => (.fatal, refilled, attempts)
    | some b =>
      if b = 0 then (.panicked, refilled, attempts)
      else (.returns b, refilled, attempts)

/-- Claim C7: with the pool initialized and a non-zero layout, if the
first sub-allocation fails then `refill` is invoked exactly when a
Sharer is active, followed by exactly one retry (two attempts in
total); if the allocation is still unsatisfied — or no Sharer was
active — the call aborts through the fatal allocation-error handler;
and `alloc_shared` never returns a null pointer. -/
theorem c7_alloc_shared_spec (layout_size : Nat) (first retry : Option Nat)
    (sharer_active : Bool) (hsz : layout_size ≠ 0) :
    (first = none →
      (alloc_shared layout_size true first retry sharer_active).2.1 =
        sharer_active) ∧
    (first = none → sharer_active = true →
      (alloc_shared layout_size true first retry sharer_active).2.2 = 2) ∧
    (first = none → (sharer_active = false ∨ retry = none) →
      (alloc_shared layout_size true first retry sharer_active).1 = .fatal) ∧
    (∀ p, (alloc_shared layout_size true first retry sharer_active).1 =
        .returns p → p ≠ 0) := by
  refine ⟨?_, ?_, ?_, ?_⟩
  · rintro rfl
    cases sharer_active
    · simp [alloc_shared, try_shared_alloc, hsz]
    · rcases retry with _ | b
      · simp [alloc_shared, try_shared_alloc, hsz]
      · by_cases hb : b = 0 <;> simp [alloc_shared, try_shared_alloc, hsz, hb]
  · rintro rfl rfl
    rcases retry with _ | b
    · simp [alloc_shared, try_shared_alloc, hsz]
    · by_cases hb : b = 0 <;> simp [alloc_shared, try_shared_alloc, hsz, hb]
  · rintro rfl h
    rcases h with rfl | rfl
    · simp [alloc_shared, try_shared_alloc, hsz]
    · cases sharer_active <;> simp [alloc_shared, try_shared_alloc, hsz]
  · intro p hp
    unfold alloc_shared try_shared_alloc at hp
    rw [if_neg hsz] at hp
    simp only [not_true, if_neg, if_false] at hp
    rcases first with _ | b
    · simp only at hp
      cases sharer_active
      · simp at hp
      · simp only [if_pos] at hp
        rcases retry with _ | b
        · simp at hp
        · by_cases hb : b = 0
          · simp [hb] at hp
          · simp [hb] at hp
            omega
    · by_cases hb : b = 0
      · simp [hb] at hp
      · simp [hb] at hp
        omega

/-- Witness for C7: concrete oracle answers — pool exhausted with an
active Sharer (refill plus one retry), exhausted with no Sharer
(fatal), still exhausted after refill (fatal), and a first-try success
whose returned address 0x3000 is non-null. -/
theorem c7_alloc_shared_spec_witness :
    ((alloc_shared 16 true none (some 0x1000) true).2.1 = true) ∧
    ((alloc_shared 16 true none (some 0x1000) true).2.2 = 2) ∧
    ((alloc_shared 16 true none none true).1 = .fatal) ∧
    ((alloc_shared 16 true none (some 0x2000) false).1 = .fatal) ∧
    ((0x3000 : Nat) ≠ 0) := by
  refine ⟨?_, ?_, ?_, ?_, ?_⟩
  · exact (c7_alloc_shared_spec 16 none (some 0x1000) true (by decide)).1 rfl
  · exact (c7_alloc_shared_spec 16 none (some 0x1000) true (by decide)).2.1 rfl rfl
  · exact (c7_alloc_shared_spec 16 none none true (by decide)).2.2.1 rfl (Or.inr rfl)
  · exact (c7_alloc_shared_spec 16 none (some 0x2000) false (by decide)).2.2.1 rfl
      (Or.inl rfl)
  · exact (c7_alloc_shared_spec 16 (some 0x3000) none false (by decide)).2.2.2
      0x3000 rfl

/-- `mmio_guard_unmap_page` on one leaf entry: skip entries that are
not `VALID` (they were never guard-mapped); for a `VALID` entry,
assert the lazy-MMIO marker (`none` models the panic for non-device
pages) and issue a hypervisor guard-unmap call for the page.  The
entry itself is returned unmodified — the visitor never rewrites the
descriptor.  In this per-4KB-page model the `va_range.len()` and
alignment assertions hold by construction, and the hypervisor unmap
call is modelled as succeeding. -/
def mmio_guard_unmap_page (flags : PteFlags) (page_base : Nat) :
    Option (PteFlags × List Nat) :=
  if flags.valid then
    if ¬ flags.mmio_lazy then none
    else some (flags, [page_base])
  else some (flags, [])

/-- Walk the leaf entries of the given pages with
`mmio_guard_unmap_page`, threading descriptor updates into the page
table and collecting the guard-unmap calls; `none` models a panic. -/
def mmio_unmap_page_walk (pt : Nat → PteFlags) :
    List Nat → Option ((Nat → PteFlags) × List Nat)
  | [] => some (pt, [])
  | p :: rest =>
    match mmio_guard_unmap_page (pt p) p with
    | none => none
    | some (flags', calls) =>
      match mmio_unmap_page_walk (fun q => if q = p then flags' else pt q) rest with
      | none => none
      | some (ptFin, callsRest) => some (ptFin, calls ++ callsRest)

/-- The 4KB pages covered by a recorded MMIO range. -/
def pagesOfRange (r : MemoryRange) : List Nat :=
  stepBy (page_4kb_of r.start) r.«end» SIZE_4KB

/-- `MemoryTracker::mmio_unmap_all`: when the MMIO-guard capability is
absent, do nothing and succeed; when present, walk every recorded MMIO
range's entries with `mmio_guard_unmap_page`.  Returns the (possibly
updated) page table and the guard-unmap calls made; the page-table
mappings themselves are never removed. -/
def MemoryTracker.mmio_unmap_all (t : MemoryTracker) (guard_present : Bool)
    (pt : Nat → PteFlags) :
    Option (Except MemoryTrackerError Unit × (Nat → PteFlags) × List Nat) :=
  if guard_present then
    match mmio_unmap_page_walk pt (t.mmio_regions.flatMap pagesOfRange) with
    | none => none
    | some (ptFin, calls) => some (.ok (), ptFin, calls)
  else some (.ok (), pt, [])

/-- The walk leaves the page table untouched and unmaps exactly the
valid pages, provided every valid page carries the lazy-MMIO marker
(else it panics). -/
theorem mmio_unmap_page_walk_spec (pages : List Nat) (pt : Nat → PteFlags)
    (h : ∀ p ∈ pages, (pt p).valid = true → (pt p).mmio_lazy = true) :
    mmio_unmap_page_walk pt pages =
      some (pt, pages.filter (fun p => (pt p).valid)) := by
  induction pages generalizing pt with
  | nil => rfl
  | cons p rest ih =>
    have hpt : (fun q => if q = p then pt p else pt q) = pt := by
      funext q
      by_cases hq : q = p
      · subst hq
        simp
      · rw [if_neg hq]
    rcases hv : (pt p).valid with _ | _
    · have hstep : mmio_guard_unmap_page (pt p) p = some (pt p, []) := by
        unfold mmio_guard_unmap_page
        rw [if_neg (by simp [hv])]
      unfold mmio_unmap_page_walk
      rw [hstep]
      dsimp only
      rw [hpt, ih pt (fun q hq => h q (List.mem_cons_of_mem _ hq))]
      simp [hv]
    · have hlazy := h p (List.mem_cons_self p rest) hv
      have hstep : mmio_guard_unmap_page (pt p) p = some (pt p, [p]) := by
        unfold mmio_guard_unmap_page
        rw [if_pos (by simp [hv]), if_neg (by simp [hlazy])]
      unfold mmio_unmap_page_walk
      rw [hstep]
      dsimp only
      rw [hpt, ih pt (fun q hq => h q (List.mem_cons_of_mem _ hq))]
      simp [hv]

/-- Claim C8: with the MMIO-guard capability present, `mmio_unmap_all`
issues a guard-unmap call exactly for the currently-`VALID` leaf
entries of the recorded MMIO ranges (non-valid entries are skipped),
and never removes or modifies any page-table entry itself; with the
capability absent it does nothing and succeeds.  (The hypothesis that
every valid recorded MMIO page carries the lazy-MMIO marker is the
reachable-state invariant: recorded ranges are mapped with the marker
and keep it when validated; a valid entry without it would panic the
assertion instead.) -/
theorem c8_mmio_unmap_all_spec (t : MemoryTracker) (pt : Nat → PteFlags)
    (h : ∀ p ∈ t.mmio_regions.flatMap pagesOfRange,
      (pt p).valid = true → (pt p).mmio_lazy = true) :
    t.mmio_unmap_all true pt =
      some (.ok (), pt,
        (t.mmio_regions.flatMap pagesOfRange).filter
          (fun p => (pt p).valid)) ∧
    t.mmio_unmap_all false pt = some (.ok (), pt, []) := by
  constructor
  · unfold MemoryTracker.mmio_unmap_all
    rw [if_pos rfl, mmio_unmap_page_walk_spec _ _ h]
  · rfl

/-- Witness for C8: a tracker with two recorded MMIO ranges; the page
table has one validated page (lazy marker still set) and the rest
still lazily registered, so exactly the one valid page is
guard-unmapped and the page table is returned unchanged. -/
theorem c8_mmio_unmap_all_spec_witness :
    (let t1 : MemoryTracker :=
      { demoTracker with mmio_regions :=
          [{ start := 0x9000, «end» := 0x9100 },
           { start := 0xA000, «end» := 0xC000 }] }
     let pt : Nat → PteFlags := fun p =>
       if p = 0xA000 then { valid := true, mmio_lazy := true }
       else { valid := false, mmio_lazy := true }
     t1.mmio_unmap_all true pt = some (.ok (), pt, [0xA000]) ∧
     t1.mmio_unmap_all false pt = some (.ok (), pt, [])) := by
  intro t1 pt
  have h := c8_mmio_unmap_all_spec t1 pt (by decide)
  have hfilter :
      (t1.mmio_regions.flatMap pagesOfRange).filter (fun p => (pt p).valid)
        = [0xA000] := by decide
  refine ⟨?_, h.2⟩
  rw [h.1, hfilter]
